import Mathlib

/-!
# Verification of the music catalog API (src/index.ts)

Shallow embedding of the catalog builder (`generateApi`), the `/sounds`
handler with its search filter, and the `/audio/:fileName` and
`/cover/:fileName` handlers.

Strings are modelled with Lean `String` (a list of characters).  The
JavaScript string operations used by the source are embedded faithfully:
`String.prototype.replace` with a string pattern replaces only the first
occurrence (`replaceFirst`), `split` on a one-character separator is
`splitOnChar`, `includes` is `strContains`, `toLowerCase`/`toUpperCase`
are ASCII case mapping (the filenames and sidecar text handled by the
program are ASCII).

The filesystem is explicit: the music-directory listing is an
`Option (List String)` (`none` models a `readdir` failure), sidecar
description files are a partial map `String → Option String` from file
name to contents (`none` models a read failure of a missing file), and
the existence checks used by the download endpoints are `String → Bool`
predicates.
-/

/-- One catalog entry, mirroring `interface Sound` in src/index.ts. -/
structure Sound where
  id : Nat
  name : String
  description : String
  tags : List String
  audio : String
  cover : String
deriving DecidableEq

/-- The ways the per-entry body of the builder loop can throw:
reading a missing description file (`descriptionFile.text()` rejects), or
`description.split("\n")[1]` being `undefined` so that `.split("-")`
throws a `TypeError`. -/
inductive BuildError where
  | missingSidecar : String → BuildError
  | missingSecondLine : String → BuildError
deriving DecidableEq

/-- JavaScript `s.split(c)` for a one-character separator `c`:
`"".split(c) = [""]`, separators at the ends produce empty fields. -/
def splitOnChar (c : Char) : List Char → List String
  | [] => [""]
  | x :: rest =>
    if x = c then "" :: splitOnChar c rest
    else
      match splitOnChar c rest with
      | [] => [String.mk [x]]
      | w :: ws => String.mk (x :: w.data) :: ws

/-- JavaScript `s.replace(pat, rep)` with a string pattern: only the first
occurrence of `pat` is replaced. -/
def replaceFirstAux (pat rep : List Char) : List Char → List Char
  | [] => if pat.isEmpty then rep else []
  | x :: rest =>
    if pat.isPrefixOf (x :: rest) then rep ++ (x :: rest).drop pat.length
    else x :: replaceFirstAux pat rep rest

/-- JavaScript `s.replace(pat, rep)` (first occurrence only), on `String`. -/
def replaceFirst (s pat rep : String) : String :=
  String.mk (replaceFirstAux pat.data rep.data s.data)

/-- JavaScript `s.endsWith(pat)`. -/
def strEndsWith (s pat : String) : Bool :=
  pat.data.isSuffixOf s.data

/-- JavaScript `s.toLowerCase()` (ASCII range). -/
def strToLower (s : String) : String :=
  String.mk (s.data.map Char.toLower)

/-- `pat` occurs as a contiguous substring of `s` (character lists). -/
def hasSubstr (pat : List Char) : List Char → Bool
  | [] => pat.isEmpty
  | x :: rest => pat.isPrefixOf (x :: rest) || hasSubstr pat rest

/-- JavaScript `s.includes(pat)`. -/
def strContains (s pat : String) : Bool :=
  hasSubstr pat.data s.data

/-- JavaScript `word.charAt(0).toUpperCase() + word.slice(1)`. -/
def capitalize (w : String) : String :=
  match w.data with
  | [] => ""
  | ch :: rest => String.mk (Char.toUpper ch :: rest)

/-- JavaScript `parts.join(sep)`. -/
def joinWith (sep : String) : List String → String
  | [] => ""
  | [w] => w
  | w :: ws => w ++ sep ++ joinWith sep ws

/-- The title derivation in the builder loop:
`fileName.replace(".mp3", "").replace("_", " ").split(" ")
   .map(word => word.charAt(0).toUpperCase() + word.slice(1)).join(" ")`. -/
def deriveTitle (fileName : String) : String :=
  joinWith " "
    (((splitOnChar ' '
        (replaceFirst (replaceFirst fileName ".mp3" "") "_" " ").data)).map capitalize)

/-- `fileName.replace(".mp3", ".txt")`: the sidecar description file name. -/
def txtName (f : String) : String := replaceFirst f ".mp3" ".txt"

/-- `fileName.replace(".mp3", ".jpg")`: the cover image file name. -/
def jpgName (f : String) : String := replaceFirst f ".mp3" ".jpg"

/-- `description.split("\n")`. -/
def splitLines (content : String) : List String :=
  splitOnChar '\n' content.data

/-- The loop body of `generateApi`, iterating over the directory listing
`files` with the accumulator `sounds` (called `acc` here).  Files not
ending in `.mp3` are skipped.  For an audio file the sidecar is read and
the entry is pushed with id `sounds.length + 1`; a missing sidecar or a
sidecar without a second line makes the body throw, which aborts the
whole loop (the `Except.error` result). -/
def buildEntries (sidecar : String → Option String) :
    List String → List Sound → Except BuildError (List Sound)
  | [], acc => Except.ok acc
  | f :: fs, acc =>
    if strEndsWith f ".mp3" then
      match sidecar (txtName f) with
      | none => Except.error (BuildError.missingSidecar f)
      | some content =>
        match (splitLines content)[1]? with
        | none => Except.error (BuildError.missingSecondLine f)
        | some l2 =>
          buildEntries sidecar fs
            (acc ++ [⟨acc.length + 1, deriveTitle f,
                      (splitLines content).headD "",
                      splitOnChar '-' l2.data,
                      "/audio/" ++ f, "/cover/" ++ jpgName f⟩])
    else buildEntries sidecar fs acc

/-- `generateApi`: lists the music directory and runs the builder loop.
The `try { ... } catch (error) { return []; }` wraps both the `readdir`
and the whole loop, so a `readdir` failure (`listing = none`) and any
per-entry throw both produce the empty list. -/
def generateApi (listing : Option (List String))
    (sidecar : String → Option String) : List Sound :=
  match listing with
  | none => []
  | some files =>
    match buildEntries sidecar files [] with
    | Except.ok sounds => sounds
    | Except.error _ => []

/-- The filter predicate of the `/sounds` handler:
`sound.name.toLowerCase().includes(search.toLowerCase()) ||
 sound.tags.some(tag => tag.toLowerCase().includes(search.toLowerCase()))`. -/
def soundMatches (term : String) (s : Sound) : Bool :=
  strContains (strToLower s.name) (strToLower term) ||
    s.tags.any (fun tag => strContains (strToLower tag) (strToLower term))

/-- `sounds.filter(sound => ...)` in the search branch. -/
def filterSounds (sounds : List Sound) (term : String) : List Sound :=
  sounds.filter (soundMatches term)

/-- A `/sounds` response: `ok` is a 200 with a JSON array body, `notFound`
is a 404 with a JSON `{error: ...}` body. -/
inductive SoundsResponse where
  | ok : List Sound → SoundsResponse
  | notFound : String → SoundsResponse
deriving DecidableEq

/-- The guard `sounds != null` of the no-search return of `/sounds`.
`generateApi` always returns an array (its catch returns `[]`), and a
JavaScript array value is never loosely equal to `null`, so this guard
is true for every value `generateApi` can produce. -/
def soundsNotNull (_sounds : List Sound) : Bool := true

/-- The `/sounds` handler.  `search` is the optional `search` header;
JavaScript `if (search)` is false both for an absent header and for an
empty-string header, and in both cases control falls through to the
no-search return. -/
def getSounds (listing : Option (List String))
    (sidecar : String → Option String) (search : Option String) :
    SoundsResponse :=
  let sounds := generateApi listing sidecar
  match search with
  | some t =>
    if t = "" then
      if soundsNotNull sounds then SoundsResponse.ok sounds
      else SoundsResponse.notFound "No sounds found"
    else
      let filtered := filterSounds sounds t
      if filtered.length > 0 then SoundsResponse.ok filtered
      else SoundsResponse.notFound "No sounds found"
  | none =>
    if soundsNotNull sounds then SoundsResponse.ok sounds
    else SoundsResponse.notFound "No sounds found"

/-- A file-download response: `stream` is a 200 streaming the file's
bytes with the given `Content-Type` header, `notFound` is a 404 with a
JSON `{error: ...}` body. -/
inductive FileResponse where
  | stream : String → FileResponse
  | notFound : String → FileResponse
deriving DecidableEq

/-- The `/audio/:fileName` handler.  `musicExists` is the
`Bun.file("./assets/music/" + fileName).exists()` check; the handler
consults only it, never the catalog. -/
def audioHandler (musicExists : String → Bool) (fileName : String) :
    FileResponse :=
  if musicExists fileName then FileResponse.stream "audio/mpeg"
  else FileResponse.notFound "Audio file not found"

/-- The `/cover/:fileName` handler over `./assets/cover`. -/
def coverHandler (coverExists : String → Bool) (fileName : String) :
    FileResponse :=
  if coverExists fileName then FileResponse.stream "image/jpeg"
  else FileResponse.notFound "Cover image not found"

/-- The sidecar read of file `f` fails to yield a second line: the file
is missing, or splitting its contents on newlines yields fewer than two
lines. -/
def badSidecar (sidecar : String → Option String) (f : String) : Bool :=
  match sidecar (txtName f) with
  | none => true
  | some content => ((splitLines content)[1]?).isNone

/-- Concrete sidecar map: `a.txt` exists but has a single line. -/
def scOneLine : String → Option String :=
  fun s => if s = "a.txt" then some "only one line" else none

/-- Concrete sidecar map: `cool_beat.txt` contains `"Desc\nA-B-C"`. -/
def scCoolBeat : String → Option String :=
  fun s => if s = "cool_beat.txt" then some "Desc\nA-B-C" else none

/-- The entry the builder derives for `cool_beat.mp3` under `scCoolBeat`. -/
def coolBeatSound : Sound :=
  ⟨1, "Cool Beat", "Desc", ["A", "B", "C"],
   "/audio/cool_beat.mp3", "/cover/cool_beat.jpg"⟩

/-- Concrete sidecar map with two well-formed sidecar files. -/
def scTwo : String → Option String :=
  fun s =>
    if s = "b.txt" then some "B\nx-y"
    else if s = "a.txt" then some "A\nz" else none

/-- The catalog built from the listing `["b.mp3", "skip.txt", "a.mp3"]`
under `scTwo`: the non-audio entry is skipped and consumes no id. -/
def rTwo : List Sound :=
  [⟨1, "B", "B", ["x", "y"], "/audio/b.mp3", "/cover/b.jpg"⟩,
   ⟨2, "A", "A", ["z"], "/audio/a.mp3", "/cover/a.jpg"⟩]

/-! ## Helper lemmas -/

theorem splitOnChar_ne_nil (c : Char) (l : List Char) : splitOnChar c l ≠ [] := by
  induction l with
  | nil => simp [splitOnChar]
  | cons x rest ih =>
    rw [splitOnChar]
    by_cases h : x = c
    · simp [h]
    · simp only [h, if_false]
      cases hr : splitOnChar c rest with
      | nil => simp
      | cons w ws => simp

theorem buildEntries_error_of_bad (sidecar : String → Option String)
    (f : String) (hmp3 : strEndsWith f ".mp3" = true)
    (hbad : badSidecar sidecar f = true) :
    ∀ (files : List String) (acc : List Sound), f ∈ files →
      ∃ e, buildEntries sidecar files acc = Except.error e := by
  intro files
  induction files with
  | nil => intro acc h; cases h
  | cons g gs ih =>
    intro acc hmem
    cases hg : strEndsWith g ".mp3" with
    | false =>
      have hfg : f ≠ g := by
        rintro rfl
        rw [hmp3] at hg
        exact Bool.noConfusion hg
      have hf : f ∈ gs := by
        cases List.mem_cons.mp hmem with
        | inl h => exact absurd h hfg
        | inr h => exact h
      obtain ⟨e, he⟩ := ih acc hf
      exact ⟨e, by rw [buildEntries, hg]; simpa using he⟩
    | true =>
      cases hsc : sidecar (txtName g) with
      | none =>
        exact ⟨BuildError.missingSidecar g, by rw [buildEntries, hg]; simp [hsc]⟩
      | some content =>
        cases hl : (splitLines content)[1]? with
        | none =>
          exact ⟨BuildError.missingSecondLine g,
            by rw [buildEntries, hg]; simp [hsc, hl]⟩
        | some l2 =>
          have hfg : f ≠ g := by
            rintro rfl
            simp only [badSidecar, hsc, hl] at hbad
            simp at hbad
          have hf : f ∈ gs := by
            cases List.mem_cons.mp hmem with
            | inl h => exact absurd h hfg
            | inr h => exact h
          obtain ⟨e, he⟩ := ih
            (acc ++ [⟨acc.length + 1, deriveTitle g,
              (splitLines content).headD "", splitOnChar '-' l2.data,
              "/audio/" ++ g, "/cover/" ++ jpgName g⟩]) hf
          exact ⟨e, by rw [buildEntries, hg]; simpa [hsc, hl] using he⟩

/-! ## Claims -/

/-- C1: the claim says a `/sounds` request with no search term and an
empty catalog (zero `.mp3` files, or `readdir` failure) answers 404 with
`{error: "No sounds found"}`.  The code instead answers 200 with the
empty JSON array in both situations: the guard `sounds != null` is
always true because `generateApi` always returns an array.  This theorem
evaluates the handler at both failing inputs. -/
theorem emptyCatalogReturnsOk :
    getSounds (some []) (fun _ => none) none = SoundsResponse.ok [] ∧
    getSounds none (fun _ => none) none = SoundsResponse.ok [] := by
  constructor <;> rfl

/-- C2 counterexample: with the single audio file `a.mp3` whose sidecar
`a.txt` has only one line, the per-entry failure does NOT propagate out
of the builder as an unhandled failure: the loop aborts with an error,
but `generateApi` catches it and returns `[]`, and the client sees the
ordinary 200 array response, not a generic framework failure. -/
theorem sidecarFailureHandledCxe :
    buildEntries scOneLine ["a.mp3"] [] =
      Except.error (BuildError.missingSecondLine "a.mp3") ∧
    generateApi (some ["a.mp3"]) scOneLine = [] ∧
    getSounds (some ["a.mp3"]) scOneLine none = SoundsResponse.ok [] := by
  refine ⟨rfl, rfl, rfl⟩

/-- C2 (amended): a missing sidecar file, or a sidecar without a second
line, is not caught at the entry level: it aborts the entire catalog
build for that request.  But the failure is caught by the builder's own
surrounding try/catch, which turns it into the empty catalog, so the
client sees the normal response for an empty catalog (a 200 with `[]`),
not an unhandled framework failure. -/
theorem sidecarFailureAbortsBuild (sidecar : String → Option String)
    (files : List String) (f : String) (hmem : f ∈ files)
    (hmp3 : strEndsWith f ".mp3" = true)
    (hbad : badSidecar sidecar f = true) :
    (∃ e, buildEntries sidecar files [] = Except.error e) ∧
    generateApi (some files) sidecar = [] ∧
    getSounds (some files) sidecar none = SoundsResponse.ok [] := by
  obtain ⟨e, he⟩ := buildEntries_error_of_bad sidecar f hmp3 hbad files [] hmem
  refine ⟨⟨e, he⟩, ?_, ?_⟩
  · simp [generateApi, he]
  · simp [getSounds, generateApi, he, soundsNotNull]

/-- C2 witness: the amended theorem applied to the concrete filesystem
of `sidecarFailureHandledCxe`. -/
theorem sidecarFailureAbortsBuild_witness :
    ("a.mp3" ∈ ["a.mp3"]) ∧ strEndsWith "a.mp3" ".mp3" = true ∧
    badSidecar scOneLine "a.mp3" = true ∧
    generateApi (some ["a.mp3"]) scOneLine = [] :=
  ⟨by decide, by decide, by decide,
   (sidecarFailureAbortsBuild scOneLine ["a.mp3"] "a.mp3"
     (by decide) (by decide) (by decide)).2.1⟩

/-- C3 counterexample: the claim states the derived name for
`a_b_c.mp3` is `"A b_c"`.  It is not: after replacing the first
underscore, the words are `["a", "b_c"]` and each word's first character
is upper-cased, so the derived name is `"A B_c"`. -/
theorem titleSingleReplaceCxe : deriveTitle "a_b_c.mp3" ≠ "A b_c" := by
  decide

/-- C3 (amended): title derivation replaces only the first underscore
(single replacement, not a global replace): for `a_b_c.mp3` the
pre-capitalization string is `"a b_c"`, and after per-word first-letter
capitalization the derived name is `"A B_c"`. -/
theorem titleSingleReplace :
    deriveTitle "a_b_c.mp3" = "A B_c" ∧
    replaceFirst "a_b_c" "_" " " = "a b_c" := by
  constructor <;> rfl

/-- C4: for any audio file whose sidecar contains `"Desc\nA-B-C"`, the
built entry gets description `"Desc"` (line 0), tags `["A", "B", "C"]`
(line 1 split on `-`, no trimming), the name derived by the title rule,
id 1 (first entry), and the `/audio/` and `/cover/` links.  In
particular `cool_beat.mp3` is titled `"Cool Beat"`. -/
theorem builtEntryFields (f : String) (sidecar : String → Option String)
    (hmp3 : strEndsWith f ".mp3" = true)
    (hsc : sidecar (txtName f) = some "Desc\nA-B-C") :
    buildEntries sidecar [f] [] =
      Except.ok [⟨1, deriveTitle f, "Desc", ["A", "B", "C"],
                 "/audio/" ++ f, "/cover/" ++ jpgName f⟩] ∧
    deriveTitle "cool_beat.mp3" = "Cool Beat" := by
  have h2 : (splitLines "Desc\nA-B-C")[1]? = some "A-B-C" := rfl
  have h3 : (splitLines "Desc\nA-B-C").headD "" = "Desc" := rfl
  have h4 : splitOnChar '-' "A-B-C".data = ["A", "B", "C"] := rfl
  constructor
  · rw [buildEntries, hmp3]
    simp only [hsc, h2, h3, h4, if_true, List.nil_append, List.length_nil,
      Nat.zero_add, buildEntries]
  · rfl

/-- C4 witness: the theorem applied to `cool_beat.mp3` with the sidecar
map `scCoolBeat`. -/
theorem builtEntryFields_witness :
    strEndsWith "cool_beat.mp3" ".mp3" = true ∧
    scCoolBeat (txtName "cool_beat.mp3") = some "Desc\nA-B-C" ∧
    buildEntries scCoolBeat ["cool_beat.mp3"] [] = Except.ok [coolBeatSound] := by
  refine ⟨by decide, rfl, ?_⟩
  have h := (builtEntryFields "cool_beat.mp3" scCoolBeat (by decide) rfl).1
  rw [h]
  rfl

/-- C5: the search filter keeps exactly the entries whose name contains
the term as a case-insensitive substring or one of whose tags does; with
no search header the handler returns the whole catalog; with a non-empty
term and a non-empty filtered subset the handler returns exactly the
filtered subset; and the term `"eat"` matches the name `"Cool Beat"`. -/
theorem filterCharacterization (listing : Option (List String))
    (sidecar : String → Option String) (term : String) (s : Sound) :
    (s ∈ filterSounds (generateApi listing sidecar) term ↔
      s ∈ generateApi listing sidecar ∧ soundMatches term s = true) ∧
    getSounds listing sidecar none =
      SoundsResponse.ok (generateApi listing sidecar) ∧
    (term ≠ "" → filterSounds (generateApi listing sidecar) term ≠ [] →
      getSounds listing sidecar (some term) =
        SoundsResponse.ok (filterSounds (generateApi listing sidecar) term)) ∧
    soundMatches "eat" coolBeatSound = true := by
  refine ⟨?_, rfl, ?_, by decide⟩
  · exact List.mem_filter
  · intro ht hne
    have hlen : 0 < (filterSounds (generateApi listing sidecar) term).length :=
      List.length_pos.mpr hne
    simp [getSounds, ht, hlen]

/-- C5 witness: the handler part of the theorem applied to the concrete
catalog built from `cool_beat.mp3` and the term `"eat"`. -/
theorem filterCharacterization_witness :
    ("eat" ≠ "") ∧
    filterSounds (generateApi (some ["cool_beat.mp3"]) scCoolBeat) "eat" ≠ [] ∧
    getSounds (some ["cool_beat.mp3"]) scCoolBeat (some "eat") =
      SoundsResponse.ok
        (filterSounds (generateApi (some ["cool_beat.mp3"]) scCoolBeat) "eat") :=
  ⟨by decide, by decide,
   (filterCharacterization (some ["cool_beat.mp3"]) scCoolBeat "eat"
     coolBeatSound).2.2.1 (by decide) (by decide)⟩

/-- C6: a non-empty search with zero matches does answer 404 with
`{error: "No sounds found"}`; but the claim also says this is the same
response the empty catalog produces, making the two cases
indistinguishable.  It is not: the empty catalog with no search term
answers 200 with `[]` (the `sounds != null` guard is always true), so
the two responses differ.  This theorem evaluates both cases. -/
theorem searchMissVsEmptyCatalog :
    getSounds (some ["cool_beat.mp3"]) scCoolBeat (some "zzz") =
      SoundsResponse.notFound "No sounds found" ∧
    getSounds (some []) scCoolBeat none = SoundsResponse.ok [] ∧
    SoundsResponse.notFound "No sounds found" ≠ SoundsResponse.ok [] := by
  refine ⟨rfl, rfl, by decide⟩

theorem ids_append (acc : List Sound) (e : Sound)
    (h : ∀ i (hi : i < acc.length), (acc.get ⟨i, hi⟩).id = i + 1)
    (he : e.id = acc.length + 1) :
    ∀ i (hi : i < (acc ++ [e]).length), ((acc ++ [e]).get ⟨i, hi⟩).id = i + 1 := by
  intro i hi
  have hi' : i < acc.length + 1 := by simpa using hi
  rcases Nat.lt_or_ge i acc.length with hlt | hge
  · have : (acc ++ [e]).get ⟨i, hi⟩ = acc.get ⟨i, hlt⟩ :=
      List.getElem_append_left hlt
    rw [this]
    exact h i hlt
  · have heq : i = acc.length := by omega
    subst heq
    have : (acc ++ [e]).get ⟨acc.length, hi⟩ = e :=
      List.getElem_concat_length acc e acc.length rfl _
    rw [this]
    exact he

theorem buildEntries_invariant (sidecar : String → Option String) :
    ∀ (files : List String) (acc r : List Sound),
      buildEntries sidecar files acc = Except.ok r →
      (∀ i (hi : i < acc.length), (acc.get ⟨i, hi⟩).id = i + 1) →
      (∀ i (hi : i < r.length), (r.get ⟨i, hi⟩).id = i + 1) ∧
      r.map Sound.audio = acc.map Sound.audio ++
        (files.filter (fun f => strEndsWith f ".mp3")).map
          (fun f => "/audio/" ++ f) := by
  intro files
  induction files with
  | nil =>
    intro acc r h hacc
    rw [buildEntries] at h
    cases h
    exact ⟨hacc, by simp⟩
  | cons g gs ih =>
    intro acc r h hacc
    rw [buildEntries] at h
    split at h
    case isTrue hg =>
      split at h
      · exact Except.noConfusion h
      case h_2 content hsc =>
        split at h
        · exact Except.noConfusion h
        case h_2 l2 hl =>
          obtain ⟨h1, h2⟩ := ih _ r h
            (ids_append acc _ hacc (by simp))
          refine ⟨h1, ?_⟩
          rw [h2]
          simp [List.filter_cons, hg, List.append_assoc]
    case isFalse hg =>
      obtain ⟨h1, h2⟩ := ih acc r h hacc
      refine ⟨h1, ?_⟩
      rw [h2]
      have hg' : strEndsWith g ".mp3" = false := by
        cases hgb : strEndsWith g ".mp3"
        · rfl
        · exact absurd hgb hg
      simp [List.filter_cons, hg']

/-- C7: in every successfully built catalog the ids are 1-based and
contiguous in processing order (entry at position `i` has id `i + 1`),
so they are unique; and the entries follow the directory-listing order
restricted to `.mp3` files — non-`.mp3` entries are skipped and consume
no id (witnessed by the `audio` links matching the filtered listing). -/
theorem catalogIdsContiguous (sidecar : String → Option String)
    (files : List String) (r : List Sound)
    (h : buildEntries sidecar files [] = Except.ok r) :
    (∀ i (hi : i < r.length), (r.get ⟨i, hi⟩).id = i + 1) ∧
    r.map Sound.audio =
      (files.filter (fun f => strEndsWith f ".mp3")).map
        (fun f => "/audio/" ++ f) := by
  obtain ⟨h1, h2⟩ := buildEntries_invariant sidecar files [] r h
    (by intro i hi; exact absurd hi (Nat.not_lt_zero i))
  exact ⟨h1, by simpa using h2⟩

/-- C7 witness: the theorem applied to the listing
`["b.mp3", "skip.txt", "a.mp3"]`, whose build succeeds with ids 1, 2. -/
theorem catalogIdsContiguous_witness :
    (rTwo.get ⟨0, by decide⟩).id = 0 + 1 ∧
    (rTwo.get ⟨1, by decide⟩).id = 1 + 1 ∧
    rTwo.map Sound.audio =
      ((["b.mp3", "skip.txt", "a.mp3"].filter
        (fun f => strEndsWith f ".mp3")).map (fun f => "/audio/" ++ f)) := by
  have h := catalogIdsContiguous scTwo ["b.mp3", "skip.txt", "a.mp3"] rTwo
    (by rfl)
  exact ⟨h.1 0 (by decide), h.1 1 (by decide), h.2⟩

theorem buildEntries_congr (s1 s2 : String → Option String)
    (hs : ∀ x, s1 x = s2 x) :
    ∀ (files : List String) (acc : List Sound),
      buildEntries s1 files acc = buildEntries s2 files acc := by
  intro files
  induction files with
  | nil => intro acc; rfl
  | cons g gs ih =>
    intro acc
    rw [buildEntries, buildEntries, hs (txtName g)]
    split
    · split
      · rfl
      · split
        · rfl
        · exact ih _
    · exact ih acc

/-- C8: the catalog build is deterministic — it depends only on the
observed filesystem state.  Two builds over equal directory listings and
pointwise-equal sidecar contents produce catalogs identical in every
field, including id assignment. -/
theorem buildDeterministic (l1 l2 : Option (List String))
    (s1 s2 : String → Option String) (hl : l1 = l2)
    (hs : ∀ x, s1 x = s2 x) :
    generateApi l1 s1 = generateApi l2 s2 := by
  subst hl
  cases l1 with
  | none => rfl
  | some files =>
    rw [generateApi, generateApi, buildEntries_congr s1 s2 hs files []]

/-- C8 witness: the theorem applied to the concrete `cool_beat.mp3`
filesystem (both hypotheses discharged by `rfl`). -/
theorem buildDeterministic_witness :
    generateApi (some ["cool_beat.mp3"]) scCoolBeat =
      generateApi (some ["cool_beat.mp3"]) scCoolBeat :=
  buildDeterministic (some ["cool_beat.mp3"]) (some ["cool_beat.mp3"])
    scCoolBeat scCoolBeat rfl (fun _ => rfl)

/-- C9: `/audio/{fileName}` answers 404 with
`{error: "Audio file not found"}` exactly when the existence check on
the music directory fails, and otherwise streams with Content-Type
`audio/mpeg`; `/cover/{fileName}` behaves analogously over the cover
directory with `image/jpeg` and `{error: "Cover image not found"}`.
Both handlers consult only the existence check — the catalog is not an
input to them, so the behavior is independent of whether any catalog
entry references the file. -/
theorem fileEndpointsCharacterization
    (musicExists coverExists : String → Bool) (fileName : String) :
    (audioHandler musicExists fileName = FileResponse.stream "audio/mpeg" ↔
      musicExists fileName = true) ∧
    (audioHandler musicExists fileName =
        FileResponse.notFound "Audio file not found" ↔
      musicExists fileName = false) ∧
    (coverHandler coverExists fileName = FileResponse.stream "image/jpeg" ↔
      coverExists fileName = true) ∧
    (coverHandler coverExists fileName =
        FileResponse.notFound "Cover image not found" ↔
      coverExists fileName = false) := by
  unfold audioHandler coverHandler
  cases musicExists fileName <;> cases coverExists fileName <;> simp

theorem buildEntries_tags_ne_nil (sidecar : String → Option String) :
    ∀ (files : List String) (acc r : List Sound),
      buildEntries sidecar files acc = Except.ok r →
      (∀ s ∈ acc, s.tags ≠ []) → ∀ s ∈ r, s.tags ≠ [] := by
  intro files
  induction files with
  | nil =>
    intro acc r h hacc
    rw [buildEntries] at h
    cases h
    exact hacc
  | cons g gs ih =>
    intro acc r h hacc
    rw [buildEntries] at h
    split at h
    · split at h
      · exact Except.noConfusion h
      case h_2 content hsc =>
        split at h
        · exact Except.noConfusion h
        case h_2 l2 hl =>
          refine ih _ r h ?_
          intro s hs
          rcases List.mem_append.mp hs with h1 | h2
          · exact hacc s h1
          · have : s = ⟨acc.length + 1, deriveTitle g,
                (splitLines content).headD "", splitOnChar '-' l2.data,
                "/audio/" ++ g, "/cover/" ++ jpgName g⟩ :=
              List.mem_singleton.mp h2
            rw [this]
            exact splitOnChar_ne_nil '-' l2.data
    · exact ih acc r h hacc

/-- C10: in every successfully built catalog entry the tags list is
non-empty: splitting the sidecar's second line on `-` always yields at
least one element (an empty second line yields `[""]`), so `tags` is
never the empty list. -/
theorem tagsNeverEmpty (listing : Option (List String))
    (sidecar : String → Option String) (s : Sound)
    (hmem : s ∈ generateApi listing sidecar) : s.tags ≠ [] := by
  cases listing with
  | none => simp [generateApi] at hmem
  | some files =>
    cases hb : buildEntries sidecar files [] with
    | ok r =>
      rw [generateApi, hb] at hmem
      exact buildEntries_tags_ne_nil sidecar files [] r hb
        (by intro s hs; exact absurd hs (List.not_mem_nil s)) s hmem
    | error e =>
      rw [generateApi, hb] at hmem
      exact absurd hmem (List.not_mem_nil s)

/-- C10 witness: the theorem applied to the entry built from
`cool_beat.mp3`. -/
theorem tagsNeverEmpty_witness :
    (coolBeatSound ∈ generateApi (some ["cool_beat.mp3"]) scCoolBeat) ∧
    coolBeatSound.tags ≠ [] :=
  ⟨by decide,
   tagsNeverEmpty (some ["cool_beat.mp3"]) scCoolBeat coolBeatSound
     (by decide)⟩
